import Mathlib

/-!
Verification of the benchmark-and-verify harness specification against the
notebook sources of `workshop_python_2025`.

The notebooks contain the concrete computations the spec was distilled from:
timing via `timeit.repeat` (`best = min(times) / runs*1e6`), NumPy masked
division / `where=` ufunc calls, loop-vs-vectorized sums, pandas
`.equals`-based result comparison, a naive prime-sum function and a recursive
Fibonacci function.  Each is shallowly embedded here; floating-point arrays
are modelled as lists of `NpVal` (a rational or a NaN marker), Python ints
as `ℤ`/`ℕ`, and Python exceptions as `Except`.
-/

/-- A NumPy/pandas floating-point cell value: either an ordinary number
(modelled as a rational) or the NaN marker. -/
inductive NpVal : Type
  | nan : NpVal
  | num (q : ℚ) : NpVal
deriving DecidableEq, Repr

/-- Modelled from the spec: cell-level comparison used by pandas
`Series.equals` (the deciding operation of the notebooks' equivalence
checks, which is library code not present in the repository): two cells are
equal when both are NaN or both are the same number; a NaN paired with a
number is unequal. -/
def valEq : NpVal → NpVal → Bool
  | NpVal.nan, NpVal.nan => true
  | NpVal.num a, NpVal.num b => a == b
  | _, _ => false

/-- Modelled from the spec: pandas `Series.equals` on two series — same
length and cell-wise `valEq` at every position. -/
def seriesEquals (xs ys : List NpVal) : Bool :=
  xs.length == ys.length && (List.zip xs ys).all fun p => valEq p.1 p.2

/-- `np.full(n, v)`: an array of `n` copies of `v`. -/
def np_full (n : ℕ) (v : NpVal) : List NpVal :=
  List.replicate n v

/-- A NumPy ufunc call `f(A, out=out, where=cond)`: positions of `A`
satisfying `cond` receive `f a`; the remaining positions keep the
corresponding value of `out`.  When no `out=` is passed, NumPy allocates a
fresh, uninitialized array, so the call is this same function applied to an
arbitrary `out` list whose contents are unspecified. -/
def np_ufunc_where (f : ℤ → NpVal) (A : List ℤ) (cond : ℤ → Bool)
    (out : List NpVal) : List NpVal :=
  List.zipWith (fun a v => if cond a then f a else v) A out

/-- Element-wise `np.divide(10, a)` on one cell (divisors are nonzero where
this is applied under the notebooks' `where=condition` guard). -/
def np_divide10 (a : ℤ) : NpVal :=
  NpVal.num (10 / (a : ℚ))

/-- Element-wise `np.power(2, a)` on one cell (exponents are the nonnegative
entries of the notebook's array `A`). -/
def np_power2 (a : ℤ) : NpVal :=
  NpVal.num (2 ^ a.toNat)

/-- The divisor/exponent array `A = np.array([2, 0, 5, 0, 10])` of the
masked-divide cells. -/
def maskedA : List ℤ := [2, 0, 5, 0, 10]

/-- The mask `condition = A != 0`. -/
def maskedCond (a : ℤ) : Bool := a != 0

/-- `masked_divide(A, B)` from the notebook.  The source reads
`V_mask = A` (with a comment claiming this creates a copy — in Python it is
an alias), builds `mask = (B != 0)`, computes `C = A[mask] / B[mask]` and
assigns `V_mask[mask] = C`, returning `(V_mask, A)`.  Because `V_mask`
aliases `A`, the in-place assignment also rewrites `A`: both components of
the returned pair are the updated array. -/
def masked_divide (A B : List ℚ) : List ℚ × List ℚ :=
  let V_mask := List.zipWith (fun a b => if b ≠ 0 then a / b else a) A B
  (V_mask, V_mask)

/-- `python_loop_sum(data)` from the notebook: `total = 0.0`, then
`total += x` for each `x` in `data` — a sequential left-to-right float64
accumulation, modelled over exact rationals.  Because the rational model
erases float rounding, no theorem here equates this with
`numpy_vectorized_sum`: the program computes different float values (the
notebook records a difference of 5.82e-10 on a million random summands).
The definition serves only as an example candidate for the scenario
runner. -/
def python_loop_sum (data : List ℚ) : ℚ :=
  data.foldl (fun total x => total + x) 0

/-- `numpy_vectorized_sum(data)` from the notebook: `np.sum(data)`, which
in NumPy is a pairwise float64 summation with a different rounding profile
from the sequential loop.  Modelled over exact rationals; see the caveat on
`python_loop_sum` — the rational model must not be used to prove the two
reductions equal, and no theorem here does.  The definition serves only as
an example candidate for the scenario runner. -/
def numpy_vectorized_sum (data : List ℚ) : ℚ :=
  data.sum

/-- The `iterrows` loop of the notebook that builds the sum_loop column of
df_perf: `sums = []`, then for each row it appends the sum of the row entry
of column x and the row entry of column y. -/
def sum_loop (xs ys : List ℚ) : List ℚ :=
  (List.zip xs ys).foldl (fun sums r => sums ++ [r.1 + r.2]) []

/-- The vectorized column sum of the notebook: the sum_vectorized column of
df_perf is assigned the element-wise sum of columns x and y. -/
def sum_vectorized (xs ys : List ℚ) : List ℚ :=
  List.zipWith (fun a b => a + b) xs ys

/-- Python's `min` on a list of run durations (the notebook calls it on the
nonempty list returned by `timeit.repeat`; on `[]` Python raises, modelled
here by the irrelevant value `0` — every use below carries a nonemptiness
hypothesis). -/
def pymin : List ℚ → ℚ
  | [] => 0
  | x :: xs => xs.foldl min x

/-- `timeit.repeat(stmt, number, repeat)`: performs `repeats` runs; each run
executes the statement `number` times consecutively and records the
wall-clock duration of the whole run.  `cost r i` is the wall-clock cost of
the `i`-th execution inside run `r`, so the recorded duration of run `r` is the
sum of its `number` execution costs. -/
def timeit_repeat (cost : ℕ → ℕ → ℚ) (number repeats : ℕ) : List ℚ :=
  (List.range repeats).map fun r => ((List.range number).map (cost r)).sum

/-- `best = min(times) / runs*1e6` from the notebook: the minimum recorded
run duration divided by the inner-loop count (the variable named `runs` is
passed as the `number` argument of `timeit`), converted to microseconds. -/
def best_per_loop_us (times : List ℚ) (runs : ℕ) : ℚ :=
  pymin times / (runs : ℚ) * 1000000

/-- `is_prime(x)` from `sum_primes_naive`: `x < 2` is not prime; otherwise
trial-divide by every `i` in `range(2, int(x**0.5) + 1)` (the float square
root of a machine integer is modelled as the exact integer square root). -/
def is_prime (x : ℕ) : Bool :=
  if x < 2 then false
  else (List.range' 2 (Nat.sqrt x + 1 - 2)).all fun i => x % i != 0

/-- `sum_primes_naive(n)` from the notebook: `total = 0`, then for `num` in
`range(2, n)`, `total += num` when `is_prime(num)`. -/
def sum_primes_naive (n : ℕ) : ℕ :=
  (List.range' 2 (n - 2)).foldl
    (fun total num => if is_prime num then total + num else total) 0

/-- `fib(n)` from the notebook: raises `ValueError` on negative input,
returns `n` for `n` in `(0, 1)`, and otherwise `fib(n-1) + fib(n-2)`. -/
def fib (n : ℤ) : Except String ℤ :=
  if n < 0 then Except.error "Negative arguments not allowed"
  else if n = 0 ∨ n = 1 then Except.ok n
  else do
    let a ← fib (n - 1)
    let b ← fib (n - 2)
    pure (a + b)
termination_by n.toNat
decreasing_by
  all_goals omega

/-- Modelled from the spec: the floating-point equivalence policy §4.2
proposes for the harness (absent from the notebooks) — every corresponding
element differs by less than an absolute tolerance OR a relative tolerance,
with defaults absolute `1e-9` and relative `1e-6`. -/
def tolWithin (absTol relTol a b : ℚ) : Bool :=
  |a - b| < absTol || |a - b| < relTol * max |a| |b|

/-- Modelled from the spec: the pass verdict of the tolerance-based
equivalence check on two same-length numeric sequences, at the spec's
default tolerances. -/
def tolEquiv (xs ys : List ℚ) : Bool :=
  xs.length == ys.length &&
    (List.zip xs ys).all fun p => tolWithin (1 / 10 ^ 9) (1 / 10 ^ 6) p.1 p.2

/-- One candidate's row of a `ScenarioReport`: its label, its output
(`none` when the candidate raised — a recorded `CandidateExecutionError`),
its measured time (`none` when it raised), and its equivalence verdict
against the reference candidate (`none` when it or the reference raised). -/
structure CandidateEntry (α : Type) : Type where
  label : String
  output : Option α
  time : Option ℚ
  equivalent : Option Bool
deriving DecidableEq, Repr

/-- Modelled from the spec: how `run_scenario` builds the report entry of
the candidate at position `k` — run it on the input; if it raises, record a
failed entry with no timing and no equivalence verdict; otherwise record
its output, its measured time `clock k`, and its equivalence against the
reference output when the reference executed. -/
def scenario_entry {ι α : Type} (eqCheck : α → α → Bool) (clock : ℕ → ℚ)
    (refOut : Option α) (input : ι) (k : ℕ)
    (cand : String × (ι → Except String α)) : CandidateEntry α :=
  match cand.2 input with
  | Except.error _ => ⟨cand.1, none, none, none⟩
  | Except.ok out =>
      ⟨cand.1, some out, some (clock k), refOut.map fun r => eqCheck r out⟩

/-- Modelled from the spec: `run_scenario` (§6), which exists only as a
contract in the spec — the notebooks inline this pattern ad hoc.  The input
factory runs first; its failure (`InputGenerationError`) aborts the whole
scenario and is the only fault that escapes.  Otherwise every candidate in
order is run, timed (`clock k` is the wall-clock measurement of candidate
`k`) and compared against the reference candidate (the first listed), each
candidate's failure being recorded in its own entry only. -/
def run_scenario {ι α : Type} (input_factory : Except String ι)
    (candidates : List (String × (ι → Except String α)))
    (eqCheck : α → α → Bool) (clock : ℕ → ℚ) :
    Except String (List (CandidateEntry α)) :=
  match input_factory with
  | Except.error e => Except.error e
  | Except.ok input =>
      let refOut : Option α :=
        match candidates.head? with
        | some c => (c.2 input).toOption
        | none => none
      Except.ok <| candidates.enum.map fun kc =>
        scenario_entry eqCheck clock refOut input kc.1 kc.2

/-- The equivalence-relevant part of a scenario report: everything except
the timing measurements. -/
def equivOutcomes {α : Type} (rep : List (CandidateEntry α)) :
    List (String × Option α × Option Bool) :=
  rep.map fun e => (e.label, e.output, e.equivalent)

lemma valEq_iff (x y : NpVal) : valEq x y = true ↔ x = y := by
  cases x <;> cases y <;> simp [valEq]

lemma seriesEquals_iff (xs ys : List NpVal) :
    seriesEquals xs ys = true ↔ xs = ys := by
  induction xs generalizing ys with
  | nil => cases ys <;> simp [seriesEquals]
  | cons x xs ih =>
      cases ys with
      | nil => simp [seriesEquals]
      | cons y ys =>
          have h := ih ys
          simp only [seriesEquals, List.zip_cons_cons, List.all_cons,
            List.length_cons, beq_iff_eq, Bool.and_eq_true,
            List.cons.injEq] at h ⊢
          rw [valEq_iff]
          constructor
          · rintro ⟨hlen, hx, hall⟩
            exact ⟨hx, h.mp ⟨by omega, hall⟩⟩
          · rintro ⟨hx, hys⟩
            rcases h.mpr hys with ⟨hlen, hall⟩
            exact ⟨by omega, hx, hall⟩

lemma sum_loop_foldl (l : List (ℚ × ℚ)) (acc : List ℚ) :
    l.foldl (fun sums r => sums ++ [r.1 + r.2]) acc =
      acc ++ l.map fun r => r.1 + r.2 := by
  induction l generalizing acc with
  | nil => simp
  | cons p l ih => simp [ih]

lemma zipWith_eq_map_zip (xs ys : List ℚ) :
    List.zipWith (fun a b => a + b) xs ys =
      (List.zip xs ys).map fun r => r.1 + r.2 := by
  induction xs generalizing ys with
  | nil => simp
  | cons x xs ih => cases ys <;> simp [ih]

/-- C2 (counterexample): the rebinding form `V = np.divide(10, A,
where=condition)` does NOT leave the NaN sentinel at the two zero-divisor
positions: the prepopulated `V` is discarded and the result holds the fresh
allocation's unspecified contents there.  Taking the uninitialized memory to
hold, say, the number `5` in every cell (the notebook's own recorded run
likewise shows non-NaN garbage, `[5. 1.41421356 2. 2. 1.]`), positions 1 and
3 of the result are not NaN. -/
theorem np_divide_where_no_out_loses_sentinel :
    (np_ufunc_where np_divide10 maskedA maskedCond
        (List.replicate 5 (NpVal.num 5)))[1]? = some (NpVal.num 5) ∧
    (np_ufunc_where np_divide10 maskedA maskedCond
        (List.replicate 5 (NpVal.num 5)))[3]? = some (NpVal.num 5) ∧
    (np_ufunc_where np_divide10 maskedA maskedCond
        (List.replicate 5 (NpVal.num 5)))[1]? ≠ some NpVal.nan := by
  refine ⟨by norm_num [np_ufunc_where, np_divide10, maskedA, maskedCond,
    List.replicate], by norm_num [np_ufunc_where, np_divide10, maskedA,
    maskedCond, List.replicate], ?_⟩
  norm_num [np_ufunc_where, np_divide10, maskedA, maskedCond, List.replicate]
  decide

/-- C2 (amended): only the `out=`/`where=` form preserves the pre-set NaN
sentinel.  With `V = np.full(5, nan)` passed as the output array, the two
zero-divisor positions (indices 1 and 3) keep NaN and the other three hold
the computed values — `10/divisor` for the divide, `2**divisor` for the
notebook's `np.power(2, A, out=V, where=condition)` cell. -/
theorem np_ufunc_where_out_keeps_sentinel :
    np_ufunc_where np_divide10 maskedA maskedCond (np_full 5 NpVal.nan) =
      [NpVal.num 5, NpVal.nan, NpVal.num 2, NpVal.nan, NpVal.num 1] ∧
    np_ufunc_where np_power2 maskedA maskedCond (np_full 5 NpVal.nan) =
      [NpVal.num 4, NpVal.nan, NpVal.num 32, NpVal.nan, NpVal.num 1024] := by
  norm_num [np_ufunc_where, np_divide10, np_power2, maskedA, maskedCond,
    np_full, List.replicate]
  refine ⟨?_, ?_, ?_⟩ <;>
    simp only [show Int.toNat 2 = 2 from rfl, show Int.toNat 5 = 5 from rfl,
      show Int.toNat 10 = 10 from rfl] <;> norm_num

/-- C3: `masked_divide` does NOT leave its first argument unchanged — the
source's `V_mask = A` aliases `A` (despite the comment claiming a copy), so
the in-place masked assignment rewrites `A`.  On `A = [6, 7]`,
`B = [2, 0]` the call returns `V_mask = [3, 7]` and `A` afterwards is
`[3, 7]`, not the original `[6, 7]`: a second candidate reading `A` sees
mutated values. -/
theorem masked_divide_mutates_input :
    masked_divide [6, 7] [2, 0] = ([3, 7], [3, 7]) ∧
    (masked_divide [6, 7] [2, 0]).2 ≠ [6, 7] := by
  constructor
  · simp [masked_divide]
    norm_num
  · intro h
    simp [masked_divide] at h
    norm_num at h

/-- C5: the loop-built and vectorized element-wise sums agree on every pair
of input columns — position `i` of either output is the single addition
`x_i + y_i`, so the two implementations are extensionally equal even in
float semantics; on `[1,2,3,4]` and `[10,20,30,40]` both produce
`[11,22,33,44]` and the `.equals`-style equivalence check passes.  (No such
equality is claimed for the scalar reductions `python_loop_sum` and
`numpy_vectorized_sum`, whose float values differ by rounding.) -/
theorem sum_loop_eq_sum_vectorized :
    (∀ xs ys : List ℚ, sum_loop xs ys = sum_vectorized xs ys) ∧
    sum_loop [1, 2, 3, 4] [10, 20, 30, 40] = [11, 22, 33, 44] ∧
    sum_vectorized [1, 2, 3, 4] [10, 20, 30, 40] = [11, 22, 33, 44] ∧
    seriesEquals
        ((sum_loop [1, 2, 3, 4] [10, 20, 30, 40]).map NpVal.num)
        ((sum_vectorized [1, 2, 3, 4] [10, 20, 30, 40]).map NpVal.num)
      = true := by
  have h1 : sum_loop [1, 2, 3, 4] [10, 20, 30, 40] = [11, 22, 33, 44] := by
    norm_num [sum_loop, List.zip, List.zipWith]
  have h2 : sum_vectorized [1, 2, 3, 4] [10, 20, 30, 40] = [11, 22, 33, 44] := by
    norm_num [sum_vectorized]
  refine ⟨?_, h1, h2, (seriesEquals_iff _ _).mpr (by rw [h1, h2])⟩
  intro xs ys
  rw [sum_loop, sum_vectorized, sum_loop_foldl, zipWith_eq_map_zip]
  simp

/-- C4: NaN handling of the deciding `.equals` comparison — a NaN paired
with a NaN at the same position never causes a reported mismatch (cell
comparison succeeds, and any series compared with itself passes, NaNs
included), while a NaN paired with a non-NaN value at the same position
always makes the whole comparison report a mismatch. -/
theorem nan_comparison_policy :
    valEq NpVal.nan NpVal.nan = true ∧
    (∀ q : ℚ, valEq NpVal.nan (NpVal.num q) = false ∧
      valEq (NpVal.num q) NpVal.nan = false) ∧
    (∀ xs : List NpVal, seriesEquals xs xs = true) ∧
    (∀ (xs ys : List NpVal) (i : ℕ) (q : ℚ),
      xs[i]? = some NpVal.nan → ys[i]? = some (NpVal.num q) →
      seriesEquals xs ys = false) := by
  refine ⟨rfl, fun q => ⟨rfl, rfl⟩, fun xs => (seriesEquals_iff xs xs).mpr rfl, ?_⟩
  intro xs ys i q hx hy
  cases h : seriesEquals xs ys with
  | false => rfl
  | true =>
      exfalso
      rw [(seriesEquals_iff xs ys).mp h] at hx
      rw [hx] at hy
      simp at hy

/-- Witness for `nan_comparison_policy`: a series containing a NaN equals
itself, and `[NaN]` compared with `[0.0]` reports a mismatch. -/
theorem nan_comparison_policy_witness :
    seriesEquals [NpVal.nan, NpVal.num 1] [NpVal.nan, NpVal.num 1] = true ∧
    seriesEquals [NpVal.nan] [NpVal.num 0] = false :=
  ⟨nan_comparison_policy.2.2.1 [NpVal.nan, NpVal.num 1],
   nan_comparison_policy.2.2.2 [NpVal.nan] [NpVal.num 0] 0 0 rfl rfl⟩

lemma foldl_min_le_init (l : List ℚ) (a : ℚ) : l.foldl min a ≤ a := by
  induction l generalizing a with
  | nil => exact le_refl a
  | cons x l ih => exact le_trans (ih (min a x)) (min_le_left a x)

lemma foldl_min_le_mem (l : List ℚ) (a y : ℚ) (hy : y ∈ l) :
    l.foldl min a ≤ y := by
  induction l generalizing a with
  | nil => cases hy
  | cons x l ih =>
      rcases List.mem_cons.mp hy with rfl | hy'
      · exact le_trans (foldl_min_le_init l (min a y)) (min_le_right a y)
      · exact ih (min a x) hy'

lemma foldl_min_mem (l : List ℚ) (a : ℚ) :
    l.foldl min a = a ∨ l.foldl min a ∈ l := by
  induction l generalizing a with
  | nil => exact Or.inl rfl
  | cons x l ih =>
      rcases ih (min a x) with h | h
      · rcases min_choice a x with hm | hm
        · exact Or.inl (by rw [List.foldl_cons, h, hm])
        · exact Or.inr (by rw [List.foldl_cons, h, hm]; exact List.mem_cons_self x l)
      · exact Or.inr (List.mem_cons_of_mem x h)

lemma pymin_mem (l : List ℚ) (h : l ≠ []) : pymin l ∈ l := by
  cases l with
  | nil => exact absurd rfl h
  | cons x xs =>
      rcases foldl_min_mem xs x with h' | h'
      · rw [pymin, h']; exact List.mem_cons_self x xs
      · exact List.mem_cons_of_mem x h'

lemma pymin_le (l : List ℚ) (y : ℚ) (hy : y ∈ l) : pymin l ≤ y := by
  cases l with
  | nil => cases hy
  | cons x xs =>
      rcases List.mem_cons.mp hy with rfl | hy'
      · exact foldl_min_le_init xs y
      · exact foldl_min_le_mem xs x y hy'

/-- C1: the timing harness (`timeit.repeat` followed by
`best = min(times) / runs*1e6`) reports a non-negative per-call time for
every terminating candidate, and the reported value is exactly the minimum
recorded run duration divided by the inner-loop count `N` (in microseconds):
it is attained by one of the `R` recorded run durations and lower-bounds the
per-call value of every recorded run duration. -/
theorem timing_best_is_min_per_call (cost : ℕ → ℕ → ℚ) (R N : ℕ)
    (hR : 1 ≤ R) (hN : 1 ≤ N) (hc : ∀ r i, 0 ≤ cost r i) :
    0 ≤ best_per_loop_us (timeit_repeat cost N R) N ∧
    (∃ t ∈ timeit_repeat cost N R,
      best_per_loop_us (timeit_repeat cost N R) N = t / (N : ℚ) * 1000000) ∧
    ∀ t ∈ timeit_repeat cost N R,
      best_per_loop_us (timeit_repeat cost N R) N ≤ t / (N : ℚ) * 1000000 := by
  have hne : timeit_repeat cost N R ≠ [] := by
    simp only [timeit_repeat, ne_eq, List.map_eq_nil_iff, List.range_eq_nil]
    omega
  have hnonneg : ∀ t ∈ timeit_repeat cost N R, 0 ≤ t := by
    intro t ht
    rcases List.mem_map.mp ht with ⟨r, _, rfl⟩
    apply List.sum_nonneg
    intro x hx
    rcases List.mem_map.mp hx with ⟨i, _, rfl⟩
    exact hc r i
  have hNpos : (0 : ℚ) < (N : ℚ) := by exact_mod_cast hN
  have hmin0 : 0 ≤ pymin (timeit_repeat cost N R) :=
    hnonneg _ (pymin_mem _ hne)
  refine ⟨?_, ⟨pymin (timeit_repeat cost N R), pymin_mem _ hne, rfl⟩, ?_⟩
  · exact mul_nonneg (div_nonneg hmin0 (le_of_lt hNpos)) (by norm_num)
  · intro t ht
    exact mul_le_mul_of_nonneg_right
      ((div_le_div_iff_of_pos_right hNpos).mpr (pymin_le _ t ht)) (by norm_num)

/-- Witness for `timing_best_is_min_per_call`: a deterministic candidate
whose calls in run `r` each cost `r + 1` seconds, timed with `R = 2` runs
of `N = 3` inner loops. -/
theorem timing_best_witness :
    0 ≤ best_per_loop_us (timeit_repeat (fun r _ => (r : ℚ) + 1) 3 2) 3 ∧
    (∃ t ∈ timeit_repeat (fun r _ => (r : ℚ) + 1) 3 2,
      best_per_loop_us (timeit_repeat (fun r _ => (r : ℚ) + 1) 3 2) 3 =
        t / ((3 : ℕ) : ℚ) * 1000000) ∧
    ∀ t ∈ timeit_repeat (fun r _ => (r : ℚ) + 1) 3 2,
      best_per_loop_us (timeit_repeat (fun r _ => (r : ℚ) + 1) 3 2) 3 ≤
        t / ((3 : ℕ) : ℚ) * 1000000 := by
  exact timing_best_is_min_per_call (fun r _ => (r : ℚ) + 1) 2 3
    (by norm_num) (by norm_num) (fun r i => by positivity)

/-- C6 (counterexample): the notebooks' deciding comparison is exact
equality, not the spec's default-tolerance check: the singleton series `[0]`
and `[1e-10]` are within the default absolute tolerance `1e-9` (so the
tolerance check of §4.2 passes) yet pandas-style `.equals` reports them unequal. -/
theorem tolerance_vs_exact_equality :
    tolEquiv [0] [1 / 10 ^ 10] = true ∧
    seriesEquals [NpVal.num 0] [NpVal.num (1 / 10 ^ 10)] = false := by
  constructor
  · norm_num [tolEquiv, tolWithin, abs_of_pos]
  · rw [← Bool.not_eq_true, seriesEquals_iff]
    norm_num

/-- C6 (amended): the pass verdict of the notebooks' equivalence check
holds iff the two series are identical under exact NaN-aware equality — no
absolute or relative tolerance is applied, and there are inputs the spec's
default-tolerance check accepts that the notebooks' check rejects. -/
theorem series_equals_is_exact :
    (∀ xs ys : List NpVal, seriesEquals xs ys = true ↔ xs = ys) ∧
    (∃ xs ys : List ℚ, tolEquiv xs ys = true ∧
      seriesEquals (xs.map NpVal.num) (ys.map NpVal.num) = false) := by
  refine ⟨seriesEquals_iff, [0], [1 / 10 ^ 10], by norm_num [tolEquiv, tolWithin, abs_of_pos], ?_⟩
  rw [← Bool.not_eq_true, seriesEquals_iff]
  norm_num

/-- C7: failure semantics of the scenario runner — the only fault that
escapes `run_scenario` is the input factory's (`InputGenerationError`);
once the input is generated the report has one entry per candidate, and
the entry at position `k` is determined by candidate `k` alone (together
with the reference candidate's output), so a candidate that raises aborts
only its own timing/equivalence entry while every other candidate's entry
is still produced. -/
theorem run_scenario_failure_semantics {ι α : Type}
    (fact : Except String ι) (cs : List (String × (ι → Except String α)))
    (eqc : α → α → Bool) (clock : ℕ → ℚ) :
    (∀ e, run_scenario fact cs eqc clock = Except.error e ↔
      fact = Except.error e) ∧
    (∀ input, fact = Except.ok input →
      ∃ rep, run_scenario fact cs eqc clock = Except.ok rep ∧
        rep.length = cs.length ∧
        ∀ k : ℕ, rep[k]? = (cs[k]?).map
          (scenario_entry eqc clock
            (match cs.head? with
             | some c => (c.2 input).toOption
             | none => none) input k)) := by
  constructor
  · intro e
    cases fact <;> simp [run_scenario]
  · rintro input rfl
    refine ⟨_, rfl, by simp [run_scenario], ?_⟩
    intro k
    simp only [run_scenario, List.getElem?_map, List.getElem?_enum,
      Option.map_map]
    cases cs[k]? <;> rfl

/-- Witness for `run_scenario_failure_semantics`: a three-candidate
scenario whose middle candidate raises — the report is still produced with
one entry per candidate and no escaping exception. -/
theorem run_scenario_failure_witness :
    ∃ rep, run_scenario (Except.ok ([1, 2] : List ℚ))
        [("ref", fun d => Except.ok (python_loop_sum d)),
         ("boom", fun _ => Except.error "ZeroDivisionError"),
         ("numpy", fun d => Except.ok (numpy_vectorized_sum d))]
        (fun a b => a == b) (fun _ => 1) = Except.ok rep ∧
      rep.length = 3 := by
  obtain ⟨rep, h1, h2, -⟩ :=
    (run_scenario_failure_semantics (Except.ok ([1, 2] : List ℚ))
      [("ref", fun d => Except.ok (python_loop_sum d)),
       ("boom", fun _ => Except.error "ZeroDivisionError"),
       ("numpy", fun d => Except.ok (numpy_vectorized_sum d))]
      (fun a b => a == b) (fun _ => 1)).2 [1, 2] rfl
  exact ⟨rep, h1, by simpa using h2⟩

/-- C8: the equivalence outcomes of a scenario report are a deterministic
function of the candidates and the input, independent of the timing
measurements — two runs of the same scenario under arbitrarily different
wall-clock behaviour produce identical equivalence outcomes. -/
theorem equivalence_outcomes_deterministic {ι α : Type}
    (fact : Except String ι) (cs : List (String × (ι → Except String α)))
    (eqc : α → α → Bool) (clock₁ clock₂ : ℕ → ℚ) :
    Except.map equivOutcomes (run_scenario fact cs eqc clock₁) =
      Except.map equivOutcomes (run_scenario fact cs eqc clock₂) := by
  cases fact with
  | error e => rfl
  | ok input =>
      simp only [run_scenario, Except.map, equivOutcomes, List.map_map]
      refine congrArg Except.ok (List.map_congr_left ?_)
      intro kc _
      cases h : kc.2.2 input <;> simp [scenario_entry, h, Function.comp]

lemma is_prime_iff (x : ℕ) : is_prime x = true ↔ Nat.Prime x := by
  rw [is_prime]
  by_cases hx : x < 2
  · rw [if_pos hx]
    simp only [Bool.false_eq_true, false_iff]
    intro hp
    exact absurd hp.two_le (by omega)
  · rw [if_neg hx]
    push_neg at hx
    have hs1 : 1 ≤ Nat.sqrt x := Nat.sqrt_pos.mpr (by omega)
    rw [List.all_eq_true, Nat.prime_def_le_sqrt]
    constructor
    · intro hall
      refine ⟨hx, fun m hm2 hms hdvd => ?_⟩
      have hmem : m ∈ List.range' 2 (Nat.sqrt x + 1 - 2) :=
        List.mem_range'_1.mpr ⟨hm2, by omega⟩
      have hne := hall m hmem
      simp only [bne_iff_ne, ne_eq] at hne
      exact hne (Nat.mod_eq_zero_of_dvd hdvd)
    · rintro ⟨-, hforall⟩ i hi
      have hi' := List.mem_range'_1.mp hi
      simp only [bne_iff_ne, ne_eq]
      intro hmod
      exact hforall i hi'.1 (by omega) (Nat.dvd_of_mod_eq_zero hmod)

lemma sum_primes_foldl (l : List ℕ) (t : ℕ) :
    l.foldl (fun total num => if is_prime num then total + num else total) t =
      t + (l.filter fun num => is_prime num).sum := by
  induction l generalizing t with
  | nil => simp
  | cons x l ih =>
      by_cases h : is_prime x
      · simp [h, ih, List.filter_cons]
        omega
      · simp [h, ih, List.filter_cons]

lemma sum_primes_naive_filter (m : ℕ) :
    sum_primes_naive m = ((List.range' 2 (m - 2)).filter fun k => is_prime k).sum := by
  simpa using sum_primes_foldl (List.range' 2 (m - 2)) 0

/-- C9: `sum_primes_naive(n)` returns the sum of all primes strictly below
`n`, and its inner helper `is_prime(x)` returns `True` exactly when `x` is
prime — trial division up to the integer square root is a correct
primality test. -/
theorem sum_primes_naive_correct :
    (∀ x : ℕ, is_prime x = true ↔ Nat.Prime x) ∧
    ∀ n : ℕ, sum_primes_naive n = ∑ p ∈ Finset.range n, if Nat.Prime p then p else 0 := by
  refine ⟨is_prime_iff, ?_⟩
  intro n
  induction n with
  | zero => simp [sum_primes_naive]
  | succ n ih =>
      rcases Nat.lt_or_ge n 2 with h | h
      · interval_cases n <;>
          simp [sum_primes_naive, Finset.sum_range_succ, Nat.not_prime_one]
      · have h2 : n + 1 - 2 = (n - 2) + 1 := by omega
        rw [sum_primes_naive_filter, h2, List.range'_concat,
          show 2 + 1 * (n - 2) = n from by omega, List.filter_append,
          List.sum_append, ← sum_primes_naive_filter,
          Finset.sum_range_succ, ih]
        by_cases hp : Nat.Prime n
        · have hb : is_prime n = true := (is_prime_iff n).mpr hp
          simp [List.filter_cons, hb, hp]
        · have hb : ¬ is_prime n = true := fun hc => hp ((is_prime_iff n).mp hc)
          simp [List.filter_cons, hb, hp]

lemma fib_nat (k : ℕ) : fib (k : ℤ) = Except.ok ((Nat.fib k : ℕ) : ℤ) := by
  induction k using Nat.strong_induction_on with
  | _ k ih =>
      match k with
      | 0 => rw [fib]; norm_num
      | 1 => rw [fib]; norm_num
      | (m + 2) =>
          have hc1 : ¬((m + 2 : ℕ) : ℤ) < 0 := by push_cast; omega
          have hc2 : ¬(((m + 2 : ℕ) : ℤ) = 0 ∨ ((m + 2 : ℕ) : ℤ) = 1) := by
            push_cast; omega
          have h1 : ((m + 2 : ℕ) : ℤ) - 1 = ((m + 1 : ℕ) : ℤ) := by
            push_cast; ring
          have h2 : ((m + 2 : ℕ) : ℤ) - 2 = ((m : ℕ) : ℤ) := by
            push_cast; ring
          rw [fib, if_neg hc1, if_neg hc2, h1, h2, ih (m + 1) (by omega),
            ih m (by omega)]
          show Except.ok _ = _
          rw [Except.ok.injEq]
          push_cast [Nat.fib_add_two]
          ring

/-- C10: `fib(n)` raises `ValueError` exactly on negative input and for
every `n ≥ 0` returns the `n`-th Fibonacci number — the in-notebook
comment claiming the implementation returns incorrect results for `n > 1`
notwithstanding, the recursion is the correct one. -/
theorem fib_correct :
    (∀ n : ℤ, n < 0 → fib n = Except.error "Negative arguments not allowed") ∧
    ∀ n : ℤ, 0 ≤ n → fib n = Except.ok ((Nat.fib n.toNat : ℕ) : ℤ) := by
  constructor
  · intro n hn
    rw [fib, if_pos hn]
  · intro n hn
    obtain ⟨k, rfl⟩ := Int.eq_ofNat_of_zero_le hn
    rw [Int.toNat_natCast]
    exact fib_nat k

/-- Witness for `fib_correct`: `fib(-1)` raises and `fib(10) = 55` (the
value the notebook's own run prints as `Fibonacci result`). -/
theorem fib_correct_witness :
    fib (-1) = Except.error "Negative arguments not allowed" ∧
    fib 10 = Except.ok 55 := by
  constructor
  · exact fib_correct.1 (-1) (by norm_num)
  · have h := fib_correct.2 10 (by norm_num)
    rw [h]
    norm_num [show Nat.fib (Int.toNat 10) = 55 from by decide]
